import Mathlib

/-!
Verification development for the borc CBOR library (basic and extended
streaming codecs). The Rust sources in src/basic/streaming.rs and
src/extended/streaming.rs are shallowly embedded below: machine integers
become Nat (with explicit wrapping where the Rust code can wrap), the
byte source of the decoder becomes a list of bytes that can run dry, and
fallible operations return Except values. Floating-point numbers are
represented by their IEEE 754 bit patterns; the conversions between the
three widths used by the codec (half, single, double) are external
primitives of the Rust code (language casts and the half crate) and are
modelled bit-exactly from the IEEE 754 rounding rules.
-/

namespace Borc

/-- Number of binary digits of a natural number (0 for 0). -/
def bitlen (n : Nat) : Nat := if n = 0 then 0 else Nat.log2 n + 1

/-- Assemble a floating-point bit pattern from sign, exponent and mantissa
fields. Like Rust arithmetic on fixed-width unsigned integers, each field is
implicitly reduced to its width. -/
def mkBits (eb mb s e m : Nat) : Nat :=
  s % 2 * 2 ^ (eb + mb) + e % 2 ^ eb * 2 ^ mb + m % 2 ^ mb

/-- Round sig / 2 ^ d to the nearest integer, ties to even. -/
def rne (sig d : Nat) : Nat :=
  if d = 0 then sig
  else
    let q0 := sig / 2 ^ d
    let r := sig % 2 ^ d
    let half := 2 ^ (d - 1)
    if half < r then q0 + 1
    else if r < half then q0
    else if q0 % 2 = 1 then q0 + 1 else q0

/-- Modelled from the spec: IEEE 754 round-to-nearest-even conversion of the
positive dyadic value sig * 2 ^ E into a binary format with eb exponent bits
and mb mantissa bits (the float-to-float casts of Rust and the half crate,
which the spec treats as available external primitives). Returns the bit
pattern without the sign bit applied. -/
def roundToFormat (eb mb s : Nat) (sig : Nat) (E : Int) : Nat :=
  let bias : Int := 2 ^ (eb - 1) - 1
  if sig = 0 then mkBits eb mb s 0 0
  else
    let realExp : Int := E + bitlen sig - 1
    let g : Int := if 1 - bias ≤ realExp then realExp - mb else 1 - bias - mb
    let q : Nat := if g ≤ E then sig * 2 ^ (E - g).toNat else rne sig (g - E).toNat
    if q = 0 then mkBits eb mb s 0 0
    else
      let realExp2 : Int := g + bitlen q - 1
      if q < 2 ^ mb then mkBits eb mb s 0 q
      else if bias < realExp2 then mkBits eb mb s (2 ^ eb - 1) 0
      else mkBits eb mb s (realExp2 + bias).toNat (q - 2 ^ (bitlen q - 1))

/-- Modelled from the spec: widening conversion from a narrow IEEE format
(eb exponent bits, mb mantissa bits) to double precision. Exact on all
finite values; NaN payloads are shifted into the high mantissa bits. -/
def widenToF64 (eb mb : Nat) (bits : Nat) : Nat :=
  let s := bits / 2 ^ (eb + mb) % 2
  let e := bits / 2 ^ mb % 2 ^ eb
  let m := bits % 2 ^ mb
  let bias := 2 ^ (eb - 1) - 1
  if e = 2 ^ eb - 1 then mkBits 11 52 s 2047 (m * 2 ^ (52 - mb))
  else if e ≠ 0 then mkBits 11 52 s (e + 1023 - bias) (m * 2 ^ (52 - mb))
  else if m = 0 then mkBits 11 52 s 0 0
  else
    let L := bitlen m
    mkBits 11 52 s (1023 + L - bias - mb) ((m - 2 ^ (L - 1)) * 2 ^ (53 - L))

/-- Modelled from the spec: the Rust cast from f32 bits to f64 bits. -/
def f32ToF64bits (bits : Nat) : Nat := widenToF64 8 23 bits

/-- Modelled from the spec: the half crate conversion from f16 bits to f64 bits. -/
def f16ToF64bits (bits : Nat) : Nat := widenToF64 5 10 bits

/-- Modelled from the spec: the Rust cast from f64 bits to f32 bits
(round to nearest even; NaN becomes a quiet NaN with truncated payload). -/
def f64ToF32bits (bits : Nat) : Nat :=
  let s : Nat := bits / 2 ^ 63 % 2
  let e : Nat := bits / 2 ^ 52 % 2 ^ 11
  let m : Nat := bits % 2 ^ 52
  if e = 2047 then
    if m = 0 then mkBits 8 23 s 255 0
    else mkBits 8 23 s 255 (Nat.lor (m / 2 ^ 29) (2 ^ 22))
  else if e = 0 then roundToFormat 8 23 s m (-1074)
  else roundToFormat 8 23 s (2 ^ 52 + m) ((e : Int) - 1075)

/-- Modelled from the spec: the half crate conversion from f64 bits to f16
bits (round to nearest even; NaN becomes a quiet NaN with truncated payload). -/
def f64ToF16bits (bits : Nat) : Nat :=
  let s : Nat := bits / 2 ^ 63 % 2
  let e : Nat := bits / 2 ^ 52 % 2 ^ 11
  let m : Nat := bits % 2 ^ 52
  if e = 2047 then
    if m = 0 then mkBits 5 10 s 31 0
    else mkBits 5 10 s 31 (Nat.lor (m / 2 ^ 42) (2 ^ 9))
  else if e = 0 then roundToFormat 5 10 s m (-1074)
  else roundToFormat 5 10 s (2 ^ 52 + m) ((e : Int) - 1075)

/-- Semantic value of an IEEE 754 bit pattern: not-a-number, a signed
infinity, or a finite rational (both zeros collapse to the rational 0,
matching IEEE equality). -/
inductive FpVal where
  | nan : FpVal
  | inf (neg : Bool) : FpVal
  | fin (q : ℚ) : FpVal
deriving DecidableEq

/-- Value denoted by a bit pattern of the format with eb exponent bits and
mb mantissa bits. -/
def fpVal (eb mb : Nat) (bits : Nat) : FpVal :=
  let s := bits / 2 ^ (eb + mb) % 2
  let e := bits / 2 ^ mb % 2 ^ eb
  let m := bits % 2 ^ mb
  let bias : Int := 2 ^ (eb - 1) - 1
  if e = 2 ^ eb - 1 then (if m = 0 then .inf (s = 1) else .nan)
  else
    let mag : ℚ :=
      if e = 0 then (m : ℚ) * (2 : ℚ) ^ (1 - bias - mb)
      else ((2 ^ mb + m : Nat) : ℚ) * (2 : ℚ) ^ ((e : Int) - bias - mb)
    .fin (if s = 1 then -mag else mag)

/-- Value of an f64 bit pattern. -/
def val64 (bits : Nat) : FpVal := fpVal 11 52 bits

/-- Modelled from the spec: the IEEE 754 equality comparison on two f64 bit
patterns, as performed by the Rust operator. NaN compares unequal to
everything, and the two zeros compare equal. -/
def fpEq64 (a b : Nat) : Bool :=
  match val64 a, val64 b with
  | .nan, _ => false
  | _, .nan => false
  | x, y => decide (x = y)

/-- Big-endian byte list of the low 8 * k bits of n. -/
def beBytes (k n : Nat) : List Nat :=
  (List.range k).map (fun i => n / 2 ^ (8 * (k - 1 - i)) % 256)

/-- Big-endian value of the first k bytes of a list. -/
def readBE (k : Nat) (l : List Nat) : Nat :=
  (l.take k).foldl (fun a b => a * 256 + b) 0

/-- Embeds the Float arm of Encoder::feed_event
(src/basic/streaming.rs lines 606 to 621): try the single-precision
downcast, accept it if re-widening compares equal to the original by the
Rust float equality, then try half precision the same way, and write the
narrowest accepted form after the matching prefix byte. -/
def encFloatBytes (bits : Nat) : List Nat :=
  let n32 := f64ToF32bits bits
  if fpEq64 (f32ToF64bits n32) bits then
    let n16 := f64ToF16bits bits
    if fpEq64 (f16ToF64bits n16) bits then 0xF9 :: beBytes 2 n16
    else 0xFA :: beBytes 4 n32
  else 0xFB :: beBytes 8 bits

/-- Embeds DecodeError (src/errors.rs); payloads of the UTF-8 and IO
variants are omitted. The OversizedBignum variant is modelled from the
spec (section 6.4 error kinds, used by the ForceConvert bignum style);
its declaration is not among the provided sources. -/
inductive DecodeError where
  | Malformed
  | Excess
  | Insufficient
  | InvalidUtf8
  | IoError
  | TagInvalid (tag : Nat)
  | InvalidDateTime
  | OversizedBignum
deriving Repr, DecidableEq

/-- Embeds EncodeError (src/errors.rs). -/
inductive EncodeError where
  | Excess
  | Insufficient
  | IoError
  | InvalidBreak
deriving Repr, DecidableEq

/-- Embeds basic::streaming::Event (src/basic/streaming.rs lines 366 to 413).
Strings are byte lists (for TextString, the UTF-8 bytes); floats are f64 bit
patterns. -/
inductive Event where
  | Unsigned (n : Nat)
  | Signed (n : Nat)
  | ByteString (b : List Nat)
  | UnknownLengthByteString
  | TextString (t : List Nat)
  | UnknownLengthTextString
  | Array (n : Nat)
  | UnknownLengthArray
  | Map (n : Nat)
  | UnknownLengthMap
  | Tag (n : Nat)
  | Simple (n : Nat)
  | Float (bits : Nat)
  | Break
deriving Repr, DecidableEq

/-- Embeds the Pending frame enum (src/basic/streaming.rs lines 42 to 49). -/
inductive Pending where
  | Break
  | Array (n : Nat)
  | Map (n : Nat) (canStop : Bool)
  | UnknownLengthMap (canStop : Bool)
  | Tag
deriving Repr, DecidableEq

/-- Wrapping decrement of a u64 (release-mode Rust semantics of n -= 1). -/
def wrapDec64 (n : Nat) : Nat := (n + (2 ^ 64 - 1)) % 2 ^ 64

/-- Embeds the pending-stack update both codecs run before dispatching on an
event (src/basic/streaming.rs lines 160 to 187 in the decoder and lines 535
to 561 in the encoder; the two Rust blocks are semantically identical). The
head of the list is the top of the stack. -/
def transitionPending : List Pending → List Pending
  | .Array n :: rest =>
    let n2 := wrapDec64 n
    if n2 = 0 then rest else .Array n2 :: rest
  | .Map n canStop :: rest =>
    if canStop then .Map n false :: rest
    else
      let n2 := wrapDec64 n
      if n2 = 0 then rest else .Map n2 true :: rest
  | .UnknownLengthMap canStop :: rest => .UnknownLengthMap (!canStop) :: rest
  | .Tag :: rest => rest
  | .Break :: rest => .Break :: rest
  | [] => []

/-- Embeds the Decoder state (src/basic/streaming.rs lines 36 to 40): the
byte source (modelled as the list of bytes it can still yield before
reporting end of stream), the input buffer, and the pending stack. -/
structure DecoderState where
  source : List Nat
  inputBuffer : List Nat
  pending : List Pending
deriving Repr, DecidableEq

/-- Embeds the TryNextEventOutcome enum (src/basic/streaming.rs lines 51 to 56). -/
inductive TryOutcome where
  | got (e : Event)
  | failed (e : DecodeError)
  | needs (n : Nat)
deriving Repr, DecidableEq

/-- Outcome of the read_argument macro (src/basic/streaming.rs lines 133 to
158) together with its bounds_check: either a shortfall request, a reserved
additional-info error, the indefinite-length marker, or the argument value
with the header size in bytes. -/
inductive ArgOutcome where
  | needs (n : Nat)
  | malformed
  | indefinite
  | val (v off : Nat)
deriving Repr, DecidableEq

/-- Embeds the read_argument macro: additional info below 24 is immediate,
24 to 27 read 1, 2, 4 or 8 big-endian bytes from the excess, 28 to 30 are
malformed, 31 is the indefinite-length marker. Shortfalls report the exact
deficit. -/
def readArgument (additional : Nat) (excess : List Nat) : ArgOutcome :=
  if additional < 24 then .val additional 1
  else if additional = 24 then
    if excess.length < 1 then .needs (1 - excess.length) else .val (readBE 1 excess) 2
  else if additional = 25 then
    if excess.length < 2 then .needs (2 - excess.length) else .val (readBE 2 excess) 3
  else if additional = 26 then
    if excess.length < 4 then .needs (4 - excess.length) else .val (readBE 4 excess) 5
  else if additional = 27 then
    if excess.length < 8 then .needs (8 - excess.length) else .val (readBE 8 excess) 9
  else if additional = 31 then .indefinite
  else .malformed

/-- UTF-8 validity of a byte list, as checked by String::from_utf8 in the
major-3 arm: rejects overlong forms, surrogates and code points above
U+10FFFF. -/
def isValidUtf8 : List Nat → Bool
  | [] => true
  | b :: rest =>
    if b < 0x80 then isValidUtf8 rest
    else if b < 0xC2 then false
    else if b < 0xE0 then
      match rest with
      | c1 :: r => 0x80 ≤ c1 && c1 ≤ 0xBF && isValidUtf8 r
      | [] => false
    else if b < 0xF0 then
      match rest with
      | c1 :: c2 :: r =>
        (if b = 0xE0 then 0xA0 ≤ c1 && c1 ≤ 0xBF
         else if b = 0xED then 0x80 ≤ c1 && c1 ≤ 0x9F
         else 0x80 ≤ c1 && c1 ≤ 0xBF) &&
        (0x80 ≤ c2 && c2 ≤ 0xBF) && isValidUtf8 r
      | _ => false
    else if b < 0xF5 then
      match rest with
      | c1 :: c2 :: c3 :: r =>
        (if b = 0xF0 then 0x90 ≤ c1 && c1 ≤ 0xBF
         else if b = 0xF4 then 0x80 ≤ c1 && c1 ≤ 0x8F
         else 0x80 ≤ c1 && c1 ≤ 0xBF) &&
        (0x80 ≤ c2 && c2 ≤ 0xBF) && (0x80 ≤ c3 && c3 ≤ 0xBF) && isValidUtf8 r
      | _ => false
    else false

/-- Embeds Decoder::try_next_event (src/basic/streaming.rs lines 108 to 331).
Faithful to the source order of operations: with a non-empty buffer the
pending-stack transition runs first, before the argument reader, so a
shortfall (needs) outcome leaves the transition applied; the main loop will
then run the transition again on the retry. The consumed prefix is drained
from the buffer only on a successful event. -/
def tryNextEvent (s : DecoderState) : TryOutcome × DecoderState :=
  match s.inputBuffer with
  | [] => (.needs 1, s)
  | initial :: excess =>
    let major := initial / 32
    let additional := initial % 32
    let p := transitionPending s.pending
    let s1 : DecoderState := { s with pending := p }
    let emit : Event → Nat → List Pending → TryOutcome × DecoderState := fun ev size pend =>
      (.got ev, { s with inputBuffer := (initial :: excess).drop size, pending := pend })
    if major = 0 then
      match readArgument additional excess with
      | .needs n => (.needs n, s1)
      | .val v off => emit (.Unsigned v) off p
      | _ => (.failed .Malformed, s1)
    else if major = 1 then
      match readArgument additional excess with
      | .needs n => (.needs n, s1)
      | .val v off => emit (.Signed v) off p
      | _ => (.failed .Malformed, s1)
    else if major = 2 then
      match readArgument additional excess with
      | .needs n => (.needs n, s1)
      | .malformed => (.failed .Malformed, s1)
      | .indefinite => emit .UnknownLengthByteString 1 (.Break :: p)
      | .val len off =>
        if excess.length < len + off - 1 then (.needs (len + off - 1 - excess.length), s1)
        else emit (.ByteString ((excess.drop (off - 1)).take len)) (len + off) p
    else if major = 3 then
      match readArgument additional excess with
      | .needs n => (.needs n, s1)
      | .malformed => (.failed .Malformed, s1)
      | .indefinite => emit .UnknownLengthTextString 1 (.Break :: p)
      | .val len off =>
        if excess.length < len + off - 1 then (.needs (len + off - 1 - excess.length), s1)
        else
          let contents := (excess.drop (off - 1)).take len
          if isValidUtf8 contents then emit (.TextString contents) (len + off) p
          else (.failed .InvalidUtf8, s1)
    else if major = 4 then
      match readArgument additional excess with
      | .needs n => (.needs n, s1)
      | .malformed => (.failed .Malformed, s1)
      | .indefinite => emit .UnknownLengthArray 1 (.Break :: p)
      | .val len off => emit (.Array len) off (if 0 < len then .Array len :: p else p)
    else if major = 5 then
      match readArgument additional excess with
      | .needs n => (.needs n, s1)
      | .malformed => (.failed .Malformed, s1)
      | .indefinite => emit .UnknownLengthMap 1 (.UnknownLengthMap true :: p)
      | .val len off => emit (.Map len) off (if 0 < len then .Map len true :: p else p)
    else if major = 6 then
      match readArgument additional excess with
      | .needs n => (.needs n, s1)
      | .malformed => (.failed .Malformed, s1)
      | .indefinite => (.failed .Malformed, s1)
      | .val v off => emit (.Tag v) off (.Tag :: p)
    else
      if additional < 24 then emit (.Simple additional) 1 p
      else if additional = 24 then
        match excess with
        | [] => (.needs 1, s1)
        | b :: _ => if b ≤ 23 then (.failed .Malformed, s1) else emit (.Simple b) 2 p
      else if additional = 25 then
        if excess.length < 2 then (.needs (2 - excess.length), s1)
        else emit (.Float (f16ToF64bits (readBE 2 excess))) 3 p
      else if additional = 26 then
        if excess.length < 4 then (.needs (4 - excess.length), s1)
        else emit (.Float (f32ToF64bits (readBE 4 excess))) 5 p
      else if additional = 27 then
        if excess.length < 8 then (.needs (8 - excess.length), s1)
        else emit (.Float (readBE 8 excess)) 9 p
      else if additional = 31 then
        match p with
        | .Break :: rest => emit .Break 1 rest
        | .UnknownLengthMap false :: rest => emit .Break 1 rest
        | _ :: rest => (.failed .Malformed, { s with pending := rest })
        | [] => (.failed .Malformed, s1)
      else (.failed .Malformed, s1)

/-- Embeds Decoder::extend_input_buffer (src/basic/streaming.rs lines 85 to
106): the buffer grows by k bytes of 0xFF filler, then read_exact overwrites
the filler prefix with bytes from the source. If the source runs dry the
call reports Insufficient, the bytes that were read stay in the buffer, and
the unread tail of the filler stays as well (the Rust code does not roll the
buffer back on error). -/
def extendInputBuffer (k : Nat) (s : DecoderState) : Option DecodeError × DecoderState :=
  let taken := s.source.take k
  let buf := s.inputBuffer ++ taken ++ List.replicate (k - taken.length) 0xFF
  if s.source.length < k then (some .Insufficient, { s with inputBuffer := buf, source := [] })
  else (none, { s with inputBuffer := buf, source := s.source.drop k })

/-- Embeds Decoder::next_event (src/basic/streaming.rs lines 74 to 83): loop
try_next_event, extending the input buffer by the reported deficit on a
needs outcome. Fuel bounds the number of iterations; none means the fuel ran
out, which never happens in the runs below. -/
def nextEvent : Nat → DecoderState → Option (Except DecodeError Event) × DecoderState
  | 0, s => (none, s)
  | fuel + 1, s =>
    match tryNextEvent s with
    | (.got e, t) => (some (.ok e), t)
    | (.failed e, t) => (some (.error e), t)
    | (.needs n, t) =>
      match extendInputBuffer n t with
      | (some err, u) => (some (.error err), u)
      | (none, u) => nextEvent fuel u

/-- Embeds Decoder::ready_to_finish (src/basic/streaming.rs lines 337 to 339). -/
def readyToFinish (s : DecoderState) : Bool := s.pending.isEmpty && s.inputBuffer.isEmpty

/-- Embeds Decoder::new: empty buffer and pending stack around a source. -/
def initDecoder (src : List Nat) : DecoderState := ⟨src, [], []⟩

/-- Embeds the Encoder state (src/basic/streaming.rs lines 495 to 498): the
bytes written so far and the pending stack. -/
structure EncoderState where
  dest : List Nat
  pending : List Pending
deriving Repr, DecidableEq

/-- Embeds the write_initial_and_argument macro (src/basic/streaming.rs
lines 509 to 533): shortest argument encoding chosen by magnitude. -/
def writeArg (major n : Nat) : List Nat :=
  if n ≤ 0x17 then [major * 32 + n]
  else if n ≤ 0xFF then [major * 32 + 0x18, n]
  else if n ≤ 0xFFFF then (major * 32 + 0x19) :: beBytes 2 n
  else if n ≤ 0xFFFFFFFF then (major * 32 + 0x1A) :: beBytes 4 n
  else (major * 32 + 0x1B) :: beBytes 8 n

/-- Embeds Encoder::feed_event (src/basic/streaming.rs lines 508 to 641).
The pending-stack transition runs first for every event, then the event is
dispatched; Array and Map starts push their frame unconditionally, and a
Break requires the just-transitioned top frame to be Break or an
indefinite-length map in the post-toggle value position. On InvalidBreak the
mutated state is discarded (no claim observes the encoder after an error). -/
def feedEvent (s : EncoderState) (ev : Event) : Except EncodeError EncoderState :=
  let p := transitionPending s.pending
  match ev with
  | .Unsigned n => .ok ⟨s.dest ++ writeArg 0 n, p⟩
  | .Signed n => .ok ⟨s.dest ++ writeArg 1 n, p⟩
  | .ByteString b => .ok ⟨s.dest ++ writeArg 2 b.length ++ b, p⟩
  | .UnknownLengthByteString => .ok ⟨s.dest ++ [0x5F], .Break :: p⟩
  | .TextString t => .ok ⟨s.dest ++ writeArg 3 t.length ++ t, p⟩
  | .UnknownLengthTextString => .ok ⟨s.dest ++ [0x7F], .Break :: p⟩
  | .Array n => .ok ⟨s.dest ++ writeArg 4 n, .Array n :: p⟩
  | .UnknownLengthArray => .ok ⟨s.dest ++ [0x9F], .Break :: p⟩
  | .Map n => .ok ⟨s.dest ++ writeArg 5 n, .Map n true :: p⟩
  | .UnknownLengthMap => .ok ⟨s.dest ++ [0xBF], .UnknownLengthMap true :: p⟩
  | .Tag n => .ok ⟨s.dest ++ writeArg 6 n, .Tag :: p⟩
  | .Float bits => .ok ⟨s.dest ++ encFloatBytes bits, p⟩
  | .Simple n => .ok ⟨s.dest ++ writeArg 7 n, p⟩
  | .Break =>
    match p with
    | .Break :: rest => .ok ⟨s.dest ++ [0xFF], rest⟩
    | .UnknownLengthMap false :: rest => .ok ⟨s.dest ++ [0xFF], rest⟩
    | _ => .error .InvalidBreak

/-- Feed a list of events in order, stopping at the first error. -/
def feedEvents (s : EncoderState) : List Event → Except EncodeError EncoderState
  | [] => .ok s
  | e :: rest =>
    match feedEvent s e with
    | .ok t => feedEvents t rest
    | .error err => .error err

/-- Embeds Encoder::ready_to_finish (src/basic/streaming.rs lines 643 to 645). -/
def encReadyToFinish (s : EncoderState) : Bool := s.pending.isEmpty

/-- Embeds Encoder::new. -/
def initEncoder : EncoderState := ⟨[], []⟩

/-- Reinterpretation of a u64 bit pattern as an i64 (the Rust as cast). -/
def toI64 (v : Nat) : Int := if v < 2 ^ 63 then (v : Int) else (v : Int) - 2 ^ 64

/-- Embeds Event::interpret_signed (src/basic/streaming.rs lines 442 to 444)
with release-mode wrapping semantics: the cast of the u64 argument to i64
wraps, after which the subtraction -1 - x never leaves the i64 range. -/
def interpretSigned (v : Nat) : Int := -1 - toI64 v

/-- Embeds Event::interpret_signed_checked (src/basic/streaming.rs lines 451
to 456): some only when the argument is strictly below i64::MAX as u64. -/
def interpretSignedChecked (v : Nat) : Option Int :=
  if v < 2 ^ 63 - 1 then some (-1 - (v : Int)) else none

/-- Embeds Event::interpret_signed_wide (src/basic/streaming.rs lines 463 to
465): exact in i128. -/
def interpretSignedWide (v : Nat) : Int := -1 - (v : Int)

/-- Embeds Event::create_signed (src/basic/streaming.rs lines 468 to 474). -/
def createSigned (v : Int) : Event :=
  if v < 0 then .Signed (-(v + 1)).toNat else .Unsigned v.toNat

/-- Embeds Event::create_signed_wide (src/basic/streaming.rs lines 481 to
490): for negative input, abs_diff against -1 followed by a checked
conversion to u64; for non-negative input, the plain as cast to u64, which
truncates to the low 64 bits. -/
def createSignedWide (v : Int) : Option Event :=
  if v < 0 then
    let d := -(v + 1)
    if d < 2 ^ 64 then some (.Signed d.toNat) else none
  else some (.Unsigned (v % 2 ^ 64).toNat)

/-- Embeds DateTimeDecodeStyle (src/extended/mod.rs); None is the default. -/
inductive DateTimeDecodeStyle where
  | None
  | Chrono
deriving Repr, DecidableEq

/-- Embeds BignumDecodeStyle (src/extended/mod.rs); Convert is the default. -/
inductive BignumDecodeStyle where
  | Convert
  | ForceConvert
  | Num
deriving Repr, DecidableEq

/-- Modelled from the spec: chrono DateTime values are opaque values of an
external collaborator; we represent them by the data they are constructed
from in src/extended/streaming.rs (an RFC 3339 text, epoch seconds, or
epoch nanoseconds). -/
inductive ChronoDT where
  | fromText (t : List Nat)
  | fromTimestamp (secs : Int)
  | fromNanos (nanos : Int)
deriving Repr, DecidableEq

/-- Embeds extended::streaming::Event (src/extended/streaming.rs lines 30 to
90): the basic alphabet with Tag replaced by UnrecognizedTag, plus the
date-time and bignum extension events. -/
inductive ExtEvent where
  | Unsigned (n : Nat)
  | Signed (n : Nat)
  | ByteString (b : List Nat)
  | UnknownLengthByteString
  | TextString (t : List Nat)
  | UnknownLengthTextString
  | Array (n : Nat)
  | UnknownLengthArray
  | Map (n : Nat)
  | UnknownLengthMap
  | UnrecognizedTag (t : Nat)
  | Simple (n : Nat)
  | Float (bits : Nat)
  | Break
  | ChronoDateTime (dt : ChronoDT)
  | NumBigInt (n : Int)
deriving Repr, DecidableEq

/-- Embeds the extended Decoder state (src/extended/streaming.rs lines 167
to 172): the wrapped basic decoder, the two configuration options, and the
queue of synthetic events returned ahead of further processing. -/
structure ExtDecoderState where
  basic : DecoderState
  dateTimeStyle : DateTimeDecodeStyle
  bignumStyle : BignumDecodeStyle
  queue : List ExtEvent
deriving Repr, DecidableEq

/-- Embeds extended Decoder::new with the default configuration. -/
def extInit (src : List Nat) : ExtDecoderState :=
  ⟨initDecoder src, .None, .Convert, []⟩

/-- Modelled from the spec: the basic decoder helper read_byte_string called
by the extended decoder (its definition is not among the provided sources;
the in-source caller comment says: read a byte string, which may be
unknown-length, and non-byte-strings are malformed; the spec adds that an
indefinite byte string is read as the concatenation of its definite
fragments up to the Break). -/
def readByteString (fuel : Nat) (s : DecoderState) : Option (Except DecodeError (List Nat) × DecoderState) :=
  match nextEvent fuel s with
  | (none, _) => none
  | (some (.error e), t) => some (.error e, t)
  | (some (.ok ev), t) =>
    match ev with
    | .ByteString b => some (.ok b, t)
    | .UnknownLengthByteString => readByteStringBody fuel [] t
    | _ => some (.error .Malformed, t)
where
  /-- Modelled from the spec: collect the definite fragments of an
  indefinite byte string up to the matching Break. -/
  readByteStringBody : Nat → List Nat → DecoderState → Option (Except DecodeError (List Nat) × DecoderState)
  | 0, _, _ => none
  | fuel + 1, acc, s =>
    match nextEvent fuel s with
    | (none, _) => none
    | (some (.error e), t) => some (.error e, t)
    | (some (.ok ev), t) =>
      match ev with
      | .ByteString b => readByteStringBody fuel (acc ++ b) t
      | .Break => some (.ok acc, t)
      | _ => some (.error .Malformed, t)

/-- Modelled from the spec: the basic decoder helper read_text_string called
by the extended decoder (same shape as read_byte_string, for major type 3). -/
def readTextString (fuel : Nat) (s : DecoderState) : Option (Except DecodeError (List Nat) × DecoderState) :=
  match nextEvent fuel s with
  | (none, _) => none
  | (some (.error e), t) => some (.error e, t)
  | (some (.ok ev), t) =>
    match ev with
    | .TextString b => some (.ok b, t)
    | .UnknownLengthTextString => readTextStringBody fuel [] t
    | _ => some (.error .Malformed, t)
where
  /-- Modelled from the spec: collect the definite fragments of an
  indefinite text string up to the matching Break. -/
  readTextStringBody : Nat → List Nat → DecoderState → Option (Except DecodeError (List Nat) × DecoderState)
  | 0, _, _ => none
  | fuel + 1, acc, s =>
    match nextEvent fuel s with
    | (none, _) => none
    | (some (.error e), t) => some (.error e, t)
    | (some (.ok ev), t) =>
      match ev with
      | .TextString b => readTextStringBody fuel (acc ++ b) t
      | .Break => some (.ok acc, t)
      | _ => some (.error .Malformed, t)

/-- Truncation of a rational toward zero, as in the Rust integer casts. -/
def ratTrunc (q : ℚ) : Int := q.num.tdiv q.den

/-- Saturation of an integer into the i64 range, as in Rust float-to-integer
casts. -/
def satI64 (n : Int) : Int :=
  if n < -(2 ^ 63) then -(2 ^ 63) else if 2 ^ 63 - 1 < n then 2 ^ 63 - 1 else n

/-- Modelled from the spec: the Float arm of the tag-1 date-time decode
splits the value into integral seconds and fractional nanoseconds
(src/extended/streaming.rs lines 343 to 349, using external float
primitives: fract, float-to-integer casts that saturate, with NaN going to
0). Returns epoch nanoseconds. -/
def floatEpochNanos (bits : Nat) : Int :=
  match val64 bits with
  | .nan => 0
  | .inf _ => 0
  | .fin q =>
    let secs := satI64 (ratTrunc q)
    let nanos := satI64 (ratTrunc ((q - ratTrunc q) * 1000000000))
    secs * 1000000000 + nanos

/-- Embeds Decoder::do_bignum (src/extended/streaming.rs lines 235 to 290):
read the byte string, return Unsigned 0 for an empty one regardless of the
tag sign, strip leading zero bytes (with the fallback index len - 1 when all
bytes are zero), fold up to 7 remaining bytes into a u64, and otherwise act
per the configured bignum style; the Convert style queues the raw byte
string and reports the tag as unrecognized. -/
def doBignum (fuel : Nat) (isNeg : Bool) (s : ExtDecoderState) : Option (Except DecodeError ExtEvent × ExtDecoderState) :=
  match readByteString fuel s.basic with
  | none => none
  | some (.error e, b) => some (.error e, { s with basic := b })
  | some (.ok raw, b) =>
    let s1 := { s with basic := b }
    if raw.length = 0 then some (.ok (.Unsigned 0), s1)
    else
      let startingIdx :=
        match raw.findIdx? (fun x => x != 0) with
        | some i => i
        | none => raw.length - 1
      let realBytes := raw.drop startingIdx
      if realBytes.length ≤ 7 then
        let number := realBytes.foldl (fun v b => v * 256 + b) 0
        some (.ok (if isNeg then .Signed number else .Unsigned number), s1)
      else
        match s.bignumStyle with
        | .Convert =>
          some (.ok (.UnrecognizedTag (if isNeg then 3 else 2)),
                { s1 with queue := s1.queue ++ [.ByteString raw] })
        | .ForceConvert => some (.error .OversizedBignum, s1)
        | .Num =>
          let v : Int := realBytes.foldl (fun v b => v * 256 + b) 0
          some (.ok (.NumBigInt (if isNeg then -1 - v else v)), s1)

/-- Conversion of a non-tag basic event into the extended alphabet
(src/extended/streaming.rs lines 306 to 319). -/
def basicToExt : Event → ExtEvent
  | .Unsigned n => .Unsigned n
  | .Signed n => .Signed n
  | .ByteString b => .ByteString b
  | .UnknownLengthByteString => .UnknownLengthByteString
  | .TextString t => .TextString t
  | .UnknownLengthTextString => .UnknownLengthTextString
  | .Array n => .Array n
  | .UnknownLengthArray => .UnknownLengthArray
  | .Map n => .Map n
  | .UnknownLengthMap => .UnknownLengthMap
  | .Tag t => .UnrecognizedTag t
  | .Simple n => .Simple n
  | .Float bits => .Float bits
  | .Break => .Break

/-- Embeds extended Decoder::next_event (src/extended/streaming.rs lines 299
to 358): drain the queue first, otherwise pull a basic event; tags 0 and 1
follow the date-time style, tags 2 and 3 go to do_bignum, all other tags
pass through as UnrecognizedTag. In the tag-1 numeric date-time path, a
following event that is not Unsigned, Signed or Float fails with
TagInvalid 0, exactly as the source writes it. -/
def extNextEvent (fuel : Nat) (s : ExtDecoderState) : Option (Except DecodeError ExtEvent × ExtDecoderState) :=
  match s.queue with
  | e :: rest => some (.ok e, { s with queue := rest })
  | [] =>
    match nextEvent fuel s.basic with
    | (none, _) => none
    | (some (.error e), b) => some (.error e, { s with basic := b })
    | (some (.ok ev), b) =>
      let s1 := { s with basic := b }
      match ev with
      | .Tag t =>
        if t = 0 then
          match s.dateTimeStyle with
          | .None => some (.ok (.UnrecognizedTag 0), s1)
          | .Chrono =>
            match readTextString fuel s1.basic with
            | none => none
            | some (.ok txt, b2) =>
              some (.ok (.ChronoDateTime (.fromText txt)), { s1 with basic := b2 })
            | some (.error .Malformed, b2) =>
              some (.error (.TagInvalid 0), { s1 with basic := b2 })
            | some (.error e, b2) => some (.error e, { s1 with basic := b2 })
        else if t = 1 then
          match s.dateTimeStyle with
          | .None => some (.ok (.UnrecognizedTag 1), s1)
          | .Chrono =>
            match nextEvent fuel s1.basic with
            | (none, _) => none
            | (some (.error e), b2) => some (.error e, { s1 with basic := b2 })
            | (some (.ok ev2), b2) =>
              let s2 := { s1 with basic := b2 }
              match ev2 with
              | .Unsigned n =>
                if n < 2 ^ 63 then some (.ok (.ChronoDateTime (.fromTimestamp n)), s2)
                else some (.error (.TagInvalid 1), s2)
              | .Signed n =>
                match interpretSignedChecked n with
                | some time => some (.ok (.ChronoDateTime (.fromTimestamp time)), s2)
                | none => some (.error (.TagInvalid 1), s2)
              | .Float bits =>
                some (.ok (.ChronoDateTime (.fromNanos (floatEpochNanos bits))), s2)
              | _ => some (.error (.TagInvalid 0), s2)
        else if t = 2 then doBignum fuel false s1
        else if t = 3 then doBignum fuel true s1
        else some (.ok (.UnrecognizedTag t), s1)
      | _ => some (.ok (basicToExt ev), s1)

/-- C1: for every event sequence the basic encoder accepts, decoding the
emitted bytes is claimed to reproduce the sequence. The encoder accepts
UnknownLengthMap, Unsigned 24, Unsigned 0, Break and writes BF 18 18 00 FF,
but a fresh decoder on those bytes fails the final Break with Malformed: the
two-byte argument of the key Unsigned 24 makes try_next_event run twice,
toggling the key/value flag of the indefinite map twice, so the 0xFF byte
meets the flag in the wrong phase. -/
theorem c1_roundtrip_fails_on_multibyte_key :
    feedEvents initEncoder [.UnknownLengthMap, .Unsigned 24, .Unsigned 0, .Break]
      = .ok ⟨[0xBF, 0x18, 0x18, 0x00, 0xFF], []⟩ ∧
    nextEvent 8 (initDecoder [0xBF, 0x18, 0x18, 0x00, 0xFF])
      = (some (.ok .UnknownLengthMap), ⟨[0x18, 0x18, 0x00, 0xFF], [], [.UnknownLengthMap true]⟩) ∧
    nextEvent 8 ⟨[0x18, 0x18, 0x00, 0xFF], [], [.UnknownLengthMap true]⟩
      = (some (.ok (.Unsigned 24)), ⟨[0x00, 0xFF], [], [.UnknownLengthMap true]⟩) ∧
    nextEvent 8 ⟨[0x00, 0xFF], [], [.UnknownLengthMap true]⟩
      = (some (.ok (.Unsigned 0)), ⟨[0xFF], [], [.UnknownLengthMap false]⟩) ∧
    nextEvent 8 ⟨[0xFF], [], [.UnknownLengthMap false]⟩
      = (some (.error .Malformed), ⟨[], [0xFF], []⟩) := by
  exact ⟨rfl, rfl, rfl, rfl, rfl⟩

/-- C2: after the source [0x19] runs dry inside a 16-bit-argument item,
next_event returns Insufficient but leaves the two 0xFF filler bytes in the
input buffer. When the source later yields the remaining bytes 12 34, the
retry parses the fillers instead and returns Unsigned 0xFFFF, while the
complete byte stream 19 12 34 denotes Unsigned 0x1234. -/
theorem c2_retry_parses_filler :
    nextEvent 8 (initDecoder [0x19])
      = (some (.error .Insufficient), ⟨[], [0x19, 0xFF, 0xFF], []⟩) ∧
    nextEvent 8 ⟨[0x12, 0x34], [0x19, 0xFF, 0xFF], []⟩
      = (some (.ok (.Unsigned 0xFFFF)), ⟨[0x12, 0x34], [], []⟩) ∧
    nextEvent 8 (initDecoder [0x19, 0x12, 0x34])
      = (some (.ok (.Unsigned 0x1234)), ⟨[], [], []⟩) ∧
    Event.Unsigned 0xFFFF ≠ Event.Unsigned 0x1234 := by
  exact ⟨rfl, rfl, rfl, by decide⟩

/-- C2 amended: when extend_input_buffer hits the end of the source, the
bytes that were read stay in the buffer followed by one 0xFF filler byte per
missing byte, and the call reports Insufficient; the buffer is not rolled
back, so a retry will parse the fillers as input. -/
theorem c2_eof_leaves_filler (s : DecoderState) (k : Nat) (h : s.source.length < k) :
    extendInputBuffer k s
      = (some .Insufficient,
         { s with
             inputBuffer := s.inputBuffer ++ s.source ++ List.replicate (k - s.source.length) 0xFF,
             source := [] }) := by
  unfold extendInputBuffer
  rw [List.take_of_length_le (Nat.le_of_lt h)]
  simp [if_pos h]

/-- Witness for the amended C2 statement at a concrete buffer, source and
deficit. -/
theorem c2_eof_leaves_filler_witness :
    (DecoderState.mk [0x12] [0x19] []).source.length < 2 ∧
    extendInputBuffer 2 ⟨[0x12], [0x19], []⟩
      = (some .Insufficient, ⟨[], [0x19, 0x12, 0xFF], []⟩) := by
  refine ⟨by decide, ?_⟩
  exact (c2_eof_leaves_filler ⟨[0x12], [0x19], []⟩ 2 (by decide)).trans (by decide)

/-- C3: decoding 82 18 18 00, the event Array 2 pushes the frame Array 2,
but the frame is already popped after the single child Unsigned 24: the
two-byte argument of the child makes try_next_event run twice and decrement
the array counter twice, so only one of the claimed two children is counted
before the frame is popped. -/
theorem c3_array_frame_popped_after_one_child :
    nextEvent 8 (initDecoder [0x82, 0x18, 0x18, 0x00])
      = (some (.ok (.Array 2)), ⟨[0x18, 0x18, 0x00], [], [.Array 2]⟩) ∧
    nextEvent 8 ⟨[0x18, 0x18, 0x00], [], [.Array 2]⟩
      = (some (.ok (.Unsigned 24)), ⟨[0x00], [], []⟩) ∧
    nextEvent 8 ⟨[0x00], [], []⟩
      = (some (.ok (.Unsigned 0)), ⟨[], [], []⟩) := by
  exact ⟨rfl, rfl, rfl⟩

/-- C4: the claim (with spec sections 4.4 and 6.1 and invariant 7) requires
a bit-for-bit round-trip check, under which the quiet NaN 0x7FF8000000000000
narrows to half precision exactly (its pattern maps to the half NaN 0x7E00
and back), so the encoder must emit the 3-byte form F9 7E 00; the code
compares by IEEE value, under which NaN never equals itself, and writes the
9-byte double form instead - the value comparison that spec section 9
explicitly labels incorrect. -/
theorem c4_nan_not_narrowed :
    encFloatBytes 0x7FF8000000000000 = [0xFB, 0x7F, 0xF8, 0, 0, 0, 0, 0, 0] ∧
    f64ToF16bits 0x7FF8000000000000 = 0x7E00 ∧
    f16ToF64bits 0x7E00 = 0x7FF8000000000000 ∧
    ([0xFB, 0x7F, 0xF8, 0, 0, 0, 0, 0, 0] : List Nat) ≠ [0xF9, 0x7E, 0x00] := by
  exact ⟨by decide, by decide, by decide, by decide⟩

/-- C5: feeding Array 0 or Map 0 to a fresh encoder pushes a pending frame
even though the count is zero (the push in the encoder is unconditional,
unlike the decoder), so ready_to_finish is false afterwards, contradicting
the claim. -/
theorem c5_empty_container_pushes_frame :
    feedEvent initEncoder (.Array 0) = .ok ⟨[0x80], [.Array 0]⟩ ∧
    encReadyToFinish ⟨[0x80], [.Array 0]⟩ = false ∧
    feedEvent initEncoder (.Map 0) = .ok ⟨[0xA0], [.Map 0 true]⟩ ∧
    encReadyToFinish ⟨[0xA0], [.Map 0 true]⟩ = false := by
  exact ⟨rfl, rfl, rfl, rfl⟩

/-- C6: interpret_signed_checked uses a strict comparison against
i64::MAX as u64, so at v = 2 ^ 63 - 1 it returns none although the
mathematical value -1 - v = -(2 ^ 63) still fits a signed 64-bit integer
(the claim requires some exactly when v < 2 ^ 63); one below the boundary it
still returns some. -/
theorem c6_checked_rejects_fitting_value :
    interpretSignedChecked (2 ^ 63 - 1) = none ∧
    (2 ^ 63 - 1 : Nat) < 2 ^ 63 ∧
    -(2 ^ 63) ≤ (-1 - (2 ^ 63 - 1 : Int)) ∧
    interpretSignedChecked (2 ^ 63 - 2) = some (-(2 ^ 63) + 1) := by
  refine ⟨?_, by norm_num, by norm_num, ?_⟩
  · simp [interpretSignedChecked]
  · rw [interpretSignedChecked, if_pos (by norm_num)]
    norm_num

/-- C7: the byte 0xFF is accepted while the top pending frame is Array 1:
the transition that runs before the break check decrements the array frame
to zero and pops it, exposing the Break frame underneath, so bytes
9F 81 FF decode to UnknownLengthArray, Array 1, Break without any error, and
the encoder likewise accepts the same event sequence; the claim says both
must fail. -/
theorem c7_break_accepted_over_array_frame :
    nextEvent 8 (initDecoder [0x9F, 0x81, 0xFF])
      = (some (.ok .UnknownLengthArray), ⟨[0x81, 0xFF], [], [.Break]⟩) ∧
    nextEvent 8 ⟨[0x81, 0xFF], [], [.Break]⟩
      = (some (.ok (.Array 1)), ⟨[0xFF], [], [.Array 1, .Break]⟩) ∧
    nextEvent 8 ⟨[0xFF], [], [.Array 1, .Break]⟩
      = (some (.ok .Break), ⟨[], [], []⟩) ∧
    feedEvents initEncoder [.UnknownLengthArray, .Array 1, .Break]
      = .ok ⟨[0x9F, 0x81, 0xFF], []⟩ := by
  exact ⟨rfl, rfl, rfl, rfl⟩

/-- C8: with bignum style Convert, the bytes C3 40 (tag 3 followed by the
empty byte string) produce the single event Unsigned 0: the early return
for an empty byte string ignores the tag sign, while the claim requires
Signed 0 (the folded value of the empty magnitude under tag 3). The
oversize passthrough part of the claim behaves as stated, shown here on
C2 4A 31..30. -/
theorem c8_empty_bignum_ignores_sign :
    extNextEvent 12 (extInit [0xC3, 0x40])
      = some (.ok (.Unsigned 0), ⟨⟨[], [], []⟩, .None, .Convert, []⟩) ∧
    ExtEvent.Unsigned 0 ≠ ExtEvent.Signed 0 ∧
    extNextEvent 16 (extInit ([0xC2, 0x4A] ++ [0x31, 0x32, 0x33, 0x34, 0x35, 0x36, 0x37, 0x38, 0x39, 0x30]))
      = some (.ok (.UnrecognizedTag 2),
              ⟨⟨[], [], []⟩, .None, .Convert,
               [.ByteString [0x31, 0x32, 0x33, 0x34, 0x35, 0x36, 0x37, 0x38, 0x39, 0x30]]⟩) ∧
    extNextEvent 16 ⟨⟨[], [], []⟩, .None, .Convert,
                     [.ByteString [0x31, 0x32, 0x33, 0x34, 0x35, 0x36, 0x37, 0x38, 0x39, 0x30]]⟩
      = some (.ok (.ByteString [0x31, 0x32, 0x33, 0x34, 0x35, 0x36, 0x37, 0x38, 0x39, 0x30]),
              ⟨⟨[], [], []⟩, .None, .Convert, []⟩) := by
  exact ⟨rfl, by decide, rfl, rfl⟩

/-- C9: with date-time style Chrono, the bytes C1 40 (tag 1 followed by a
byte string, which is neither Unsigned, Signed nor Float) fail with
TagInvalid 0, not TagInvalid 1 as the claim requires: the catch-all arm of
the numeric date-time decoder names the wrong tag. -/
theorem c9_numeric_datetime_reports_tag_zero :
    extNextEvent 12 ⟨initDecoder [0xC1, 0x40], .Chrono, .Convert, []⟩
      = some (.error (.TagInvalid 0), ⟨⟨[], [], []⟩, .Chrono, .Convert, []⟩) ∧
    DecodeError.TagInvalid 0 ≠ DecodeError.TagInvalid 1 := by
  exact ⟨rfl, by decide⟩

/-- C10: create_signed_wide returns none exactly below -(2 ^ 64); inside
the CBOR integer range it builds the event denoting the value (Unsigned for
non-negative, Signed with argument -1 - v for negative); and at or above
2 ^ 64 it silently truncates to the low 64 bits instead of returning none. -/
theorem c10_create_signed_wide_behaviour (v : Int)
    (h1 : -(2 ^ 127) ≤ v) (h2 : v < 2 ^ 127) :
    (createSignedWide v = none ↔ v < -(2 ^ 64)) ∧
    (-(2 ^ 64) ≤ v → v < 0 → createSignedWide v = some (.Signed (-1 - v).toNat)) ∧
    (0 ≤ v → v < 2 ^ 64 → createSignedWide v = some (.Unsigned v.toNat)) ∧
    (2 ^ 64 ≤ v → createSignedWide v = some (.Unsigned (v % 2 ^ 64).toNat)) := by
  refine ⟨⟨?_, ?_⟩, ?_, ?_, ?_⟩
  · intro hn
    by_contra hlt
    push_neg at hlt
    rcases lt_or_le v 0 with hv | hv
    · rw [createSignedWide, if_pos hv, if_pos (by omega)] at hn
      exact Option.noConfusion hn
    · rw [createSignedWide, if_neg (by omega)] at hn
      exact Option.noConfusion hn
  · intro hlt
    rw [createSignedWide, if_pos (by omega), if_neg (by omega)]
  · intro hge hv
    rw [createSignedWide, if_pos hv, if_pos (by omega)]
    have hd : -(v + 1) = -1 - v := by ring
    rw [hd]
  · intro h0 hv
    rw [createSignedWide, if_neg (by omega)]
    rw [Int.emod_eq_of_lt h0 hv]
  · intro hge
    rw [createSignedWide, if_neg (by omega)]

/-- Witness for C10 at the truncating input 2 ^ 64 + 5. -/
theorem c10_create_signed_wide_behaviour_witness :
    (-(2 ^ 127) ≤ (2 ^ 64 + 5 : Int)) ∧ ((2 ^ 64 + 5 : Int) < 2 ^ 127) ∧
    createSignedWide (2 ^ 64 + 5) = some (.Unsigned 5) := by
  refine ⟨by norm_num, by norm_num, ?_⟩
  have h := (c10_create_signed_wide_behaviour (2 ^ 64 + 5) (by norm_num) (by norm_num)).2.2.2
    (by norm_num)
  rw [h]
  decide

end Borc
